import Mathlib

/-!
Shallow embedding of a small project/task tracking HTTP backend
(Express + PostgreSQL) and proofs about its externally observable behavior.

The backend exists in two variants:
* variant A (the full server): tables `projects` (id, name, description,
  status DEFAULT 'new', created_at), `tasks` (id, title, done, project_id)
  and `files` (id, filename, filepath, project_id), with routes for
  projects, tasks, completion percentage and file upload/listing/viewing;
* variant B (the reduced server): table `projects` (id, name, status
  NOT NULL, created_at) with only the GET/POST `/projects` routes.

The database is modelled as explicit state: tables are lists of rows in
insertion order, `SERIAL` columns as a next-id counter, and the clock
(`CURRENT_TIMESTAMP` / `Date.now()`) as a natural-number field `now`.
Project creation advances the clock, so `created_at` values are distinct;
the upload route, by contrast, merely reads `Date.now()`, which has
millisecond resolution and may return the same value to several requests —
time passing between requests is a separate `elapse` step that may advance
the clock by zero.  Each HTTP handler becomes a function from the request
data and the state to a response (status code plus body) and, for writes,
an updated state.  The
floating-point expression `Math.round((done / total) * 100)` is modelled
in exact rational arithmetic: `Math.round` on a nonnegative rational
rounds half-up.
-/

/-- A row of the `projects` table (variant A): `description` is a nullable
column, `status` has DDL default `'new'`, `created_at` defaults to the
current timestamp. -/
structure Project where
  id : Nat
  name : String
  description : Option String
  status : String
  created_at : Nat
deriving Repr, DecidableEq

/-- A row of the `tasks` table: `done` defaults to false, `project_id`
references `projects(id)` with ON DELETE CASCADE. -/
structure TaskRow where
  id : Nat
  title : String
  done : Bool
  project_id : Nat
deriving Repr, DecidableEq

/-- A row of the `files` table: `filename` is the original upload name,
`filepath` the server-assigned storage location. -/
structure FileRow where
  id : Nat
  filename : String
  filepath : String
  project_id : Nat
deriving Repr, DecidableEq

/-- The objects produced by `SELECT id, filename FROM files ...`: by
construction they carry no `filepath` field. -/
structure FileEntry where
  id : Nat
  filename : String
deriving Repr, DecidableEq

/-- The database state of variant A, plus the clock.  Tables are kept in
insertion (storage) order; `SERIAL` id generation is the next-id counters. -/
structure DB where
  projects : List Project
  tasks : List TaskRow
  files : List FileRow
  nextProjectId : Nat
  nextTaskId : Nat
  nextFileId : Nat
  now : Nat
deriving Repr, DecidableEq

/-- Response bodies the handlers can produce. -/
inductive Body where
  | text (s : String)
  | jsonError (msg : String)
  | jsonProject (row : Project)
  | jsonProjects (rows : List Project)
  | jsonProjectB (id : Nat) (name status : String) (created_at : Nat)
  | jsonTask (row : TaskRow)
  | jsonTasks (rows : List TaskRow)
  | jsonFiles (rows : List FileEntry)
  | jsonPercentage (p : Nat)
  | fileStream (path : String)
  | empty
deriving Repr, DecidableEq

/-- An HTTP response: status code and body. -/
structure Resp where
  status : Nat
  body : Body
deriving Repr, DecidableEq

/-- JavaScript truthiness test on an optional string request-body field:
`undefined` (absent) and `""` are falsy, as in `if (!name || !description)`. -/
def isFalsyStr : Option String → Bool
  | none => true
  | some s => s == ""

/-- Decimal representation of a natural number, modelling JavaScript
number-to-string coercion of an integer value (as in `Date.now() + '-'`). -/
def jsNumToString (n : Nat) : String :=
  if n = 0 then "0" else (((Nat.digits 10 n).map Nat.digitChar).reverse).asString

/-- `Math.round(num / den)` for a nonnegative rational `num / den` with
`den ≠ 0`, in exact arithmetic: the half-up rounding `⌊num/den + 1/2⌋`. -/
def jsMathRound (num den : Nat) : Nat := (2 * num + den) / (2 * den)

/-- SELECT COUNT(asterisk) FROM tasks WHERE project_id = pid. -/
def countTasks (db : DB) (pid : Nat) : Nat :=
  (db.tasks.filter fun t => t.project_id == pid).length

/-- SELECT COUNT(asterisk) FROM tasks WHERE project_id = pid AND done = true. -/
def countDoneTasks (db : DB) (pid : Nat) : Nat :=
  (db.tasks.filter fun t => t.project_id == pid && t.done).length

/-- GET `/projects/:id/completion`: two count queries and
`totalTasks === 0 ? 0 : Math.round((doneTasks / totalTasks) * 100)`. -/
def getCompletion (db : DB) (pid : Nat) : Resp :=
  let totalTasks := countTasks db pid
  let doneTasks := countDoneTasks db pid
  let percentage := if totalTasks == 0 then 0 else jsMathRound (doneTasks * 100) totalTasks
  { status := 200, body := .jsonPercentage percentage }

/-- The ordering used by `ORDER BY created_at DESC`. -/
def createdDesc (a b : Project) : Prop := b.created_at ≤ a.created_at

instance : DecidableRel createdDesc := fun a b => Nat.decLe b.created_at a.created_at

instance : IsTotal Project createdDesc :=
  ⟨fun a b => Nat.le_total b.created_at a.created_at⟩

instance : IsTrans Project createdDesc :=
  ⟨fun _ _ _ h1 h2 => Nat.le_trans h2 h1⟩

/-- SELECT * FROM projects ORDER BY created_at DESC (a stable sort of the
stored rows on `created_at`, descending). -/
def listProjects (db : DB) : List Project :=
  db.projects.insertionSort createdDesc

/-- GET `/projects`. -/
def getProjects (db : DB) : Resp :=
  { status := 200, body := .jsonProjects (listProjects db) }

/-- POST `/projects` (variant A): rejects a missing or empty `name` or
`description` with 400 before any query; otherwise
INSERT INTO projects (name, description) VALUES ($1, $2) RETURNING *,
so `status` takes the DDL default `'new'` and `created_at` the current
timestamp. -/
def postProjects (db : DB) (name description : Option String) : Resp × DB :=
  if isFalsyStr name || isFalsyStr description then
    ({ status := 400, body := .jsonError "Name and description are required" }, db)
  else
    let row : Project :=
      { id := db.nextProjectId, name := name.getD "", description := description,
        status := "new", created_at := db.now }
    ({ status := 201, body := .jsonProject row },
     { db with projects := db.projects ++ [row],
               nextProjectId := db.nextProjectId + 1, now := db.now + 1 })

/-- GET `/projects/:id/tasks`. -/
def getTasks (db : DB) (pid : Nat) : Resp :=
  { status := 200, body := .jsonTasks (db.tasks.filter fun t => t.project_id == pid) }

/-- POST `/projects/:id/tasks`:
INSERT INTO tasks (title, project_id) VALUES ($1, $2) RETURNING *
(`done` takes the DDL default false). -/
def postTasks (db : DB) (pid : Nat) (title : String) : Resp × DB :=
  let row : TaskRow := { id := db.nextTaskId, title := title, done := false, project_id := pid }
  ({ status := 201, body := .jsonTask row },
   { db with tasks := db.tasks ++ [row], nextTaskId := db.nextTaskId + 1 })

/-- PUT `/tasks/:id`:
UPDATE tasks SET done = NOT done WHERE id = $1 RETURNING *, then
`res.json(result.rows[0])` — when no row matched, `rows[0]` is
`undefined` and Express sends an empty body with the default 200 status. -/
def putTask (db : DB) (tid : Nat) : Resp × DB :=
  let updatedTasks := db.tasks.map fun t => if t.id == tid then { t with done := !t.done } else t
  let resp : Resp :=
    match (updatedTasks.filter fun t => t.id == tid).head? with
    | some t => { status := 200, body := .jsonTask t }
    | none => { status := 200, body := .empty }
  (resp, { db with tasks := updatedTasks })

/-- The file the multipart middleware hands to the upload route. -/
structure UploadedFile where
  originalname : String
deriving Repr, DecidableEq

/-- The multer diskStorage filename callback:
`cb(null, Date.now() + '-' + file.originalname)`. -/
def storedFilename (now : Nat) (originalname : String) : String :=
  jsNumToString now ++ "-" ++ originalname

/-- `file.path`: the destination directory `'uploads/'` joined with the
generated filename. -/
def storedPath (now : Nat) (originalname : String) : String :=
  "uploads/" ++ storedFilename now originalname

/-- POST `/projects/:id/upload`: 400 when no file part is present, else
INSERT INTO files (filename, filepath, project_id) VALUES ($1, $2, $3). -/
def postUpload (db : DB) (pid : Nat) (file : Option UploadedFile) : Resp × DB :=
  match file with
  | none => ({ status := 400, body := .text "No file uploaded" }, db)
  | some f =>
    let row : FileRow :=
      { id := db.nextFileId, filename := f.originalname,
        filepath := storedPath db.now f.originalname, project_id := pid }
    ({ status := 201, body := .text "File uploaded" },
     { db with files := db.files ++ [row], nextFileId := db.nextFileId + 1 })

/-- The wall clock advancing by `d` milliseconds between requests.
`Date.now()` has millisecond resolution, so two requests handled within the
same millisecond observe the same value: nothing forces `d ≠ 0`. -/
def elapse (d : Nat) (db : DB) : DB := { db with now := db.now + d }

/-- GET `/projects/:id/files`:
SELECT id, filename FROM files WHERE project_id = $1. -/
def getProjectFiles (db : DB) (pid : Nat) : Resp :=
  { status := 200,
    body := .jsonFiles ((db.files.filter fun r => r.project_id == pid).map fun r =>
      { id := r.id, filename := r.filename }) }

/-- The directory of the server source file, against which
`path.resolve(__dirname, filepath)` resolves stored paths. -/
def serverDirname : String := "__dirname"

/-- `path.resolve(dir, fp)` for a relative `fp`. -/
def pathResolve (dir fp : String) : String := dir ++ "/" ++ fp

/-- GET `/files/:id/view`: SELECT * FROM files WHERE id = $1; 404 when no
row matches, else `res.sendFile(path.resolve(__dirname, rows[0].filepath))`. -/
def getFileView (db : DB) (fid : Nat) : Resp :=
  match (db.files.filter fun r => r.id == fid).head? with
  | none => { status := 404, body := .text "File not found" }
  | some r => { status := 200, body := .fileStream (pathResolve serverDirname r.filepath) }

/-- Referential integrity enforced by the store: every task and file row
references an existing project. -/
def DB.WF (db : DB) : Prop :=
  (∀ t ∈ db.tasks, ∃ p ∈ db.projects, p.id = t.project_id) ∧
  (∀ f ∈ db.files, ∃ p ∈ db.projects, p.id = f.project_id)

instance (db : DB) : Decidable (DB.WF db) := by
  unfold DB.WF; exact instDecidableAnd

/-- Variant B database state: `projects` only, with a required `status`
column and no `description`. -/
structure ProjectB where
  id : Nat
  name : String
  status : String
  created_at : Nat
deriving Repr, DecidableEq

structure DBB where
  projects : List ProjectB
  nextProjectId : Nat
  now : Nat
deriving Repr, DecidableEq

/-- POST `/projects` (variant B): rejects a missing or empty `name` or
`status` with 400 before any query; otherwise
INSERT INTO projects (name, status) VALUES ($1, $2) RETURNING *. -/
def postProjectsB (db : DBB) (name status : Option String) : Resp × DBB :=
  if isFalsyStr name || isFalsyStr status then
    ({ status := 400, body := .jsonError "Name and status are required" }, db)
  else
    let row : ProjectB :=
      { id := db.nextProjectId, name := name.getD "", status := status.getD "",
        created_at := db.now }
    ({ status := 201, body := .jsonProjectB row.id row.name row.status row.created_at },
     { db with projects := db.projects ++ [row],
               nextProjectId := db.nextProjectId + 1, now := db.now + 1 })

/-- Round-half-up of `100 * d / t`, written from the specification text
(round(100 × done_count / total_count) with round-half-up semantics):
`⌊(100 d + 1/2 t) / t⌋ = ⌊(200 d + t) / (2 t)⌋`. -/
def specRoundHalfUp (d t : Nat) : Nat := (200 * d + t) / (2 * t)

/-! Sample states used to instantiate theorems with hypotheses. -/

def taskA : TaskRow := { id := 1, title := "write spec", done := false, project_id := 1 }

def projA : Project :=
  { id := 1, name := "Alpha", description := some "first", status := "new", created_at := 0 }

def dbSample : DB :=
  { projects := [projA], tasks := [taskA], files := [],
    nextProjectId := 2, nextTaskId := 2, nextFileId := 1, now := 1 }

def dbbSample : DBB := { projects := [], nextProjectId := 1, now := 0 }

/-! Toggling helper lemmas. -/

lemma toggle_map_twice (tid : Nat) (l : List TaskRow) :
    ((l.map fun t => if t.id == tid then { t with done := !t.done } else t).map
      fun t => if t.id == tid then { t with done := !t.done } else t) = l := by
  induction l with
  | nil => rfl
  | cons a l ih =>
    obtain ⟨aid, atitle, adone, apid⟩ := a
    simp only [List.map_cons, ih, List.cons.injEq, and_true]
    by_cases h : aid = tid <;> simp [h]

lemma toggle_map_id (tid : Nat) (l : List TaskRow) (h : ∀ t ∈ l, t.id ≠ tid) :
    (l.map fun t => if t.id == tid then { t with done := !t.done } else t) = l := by
  induction l with
  | nil => rfl
  | cons a l ih =>
    have ha : a.id ≠ tid := h a (List.mem_cons_self a l)
    simp only [List.map_cons, ih fun t ht => h t (List.mem_cons_of_mem a ht),
      List.cons.injEq, and_true]
    simp [ha]

/-- C2: `toggleTask` is an involution: for a task present in the store, one
application of PUT `/tasks/:id` flips its `done` field (it does not set it),
and a second application restores every task row to its original value. -/
theorem toggleTask_involution (db : DB) (t : TaskRow) (ht : t ∈ db.tasks) :
    { t with done := !t.done } ∈ (putTask db t.id).2.tasks ∧
    ((putTask (putTask db t.id).2 t.id).2).tasks = db.tasks := by
  constructor
  · simp only [putTask]
    exact List.mem_map.mpr ⟨t, ht, by simp⟩
  · simp only [putTask]
    exact toggle_map_twice t.id db.tasks

theorem toggleTask_involution_witness :
    taskA ∈ dbSample.tasks ∧
    ({ taskA with done := !taskA.done } ∈ (putTask dbSample taskA.id).2.tasks ∧
     ((putTask (putTask dbSample taskA.id).2 taskA.id).2).tasks = dbSample.tasks) :=
  ⟨by decide, toggleTask_involution dbSample taskA (by decide)⟩

/-- C3: PUT `/tasks/:id` on a task id absent from the store responds with
status 200 and an empty body (not 404), and leaves the state unchanged. -/
theorem toggleTask_missing (db : DB) (tid : Nat) (h : ∀ t ∈ db.tasks, t.id ≠ tid) :
    putTask db tid = ({ status := 200, body := .empty }, db) := by
  have hmap := toggle_map_id tid db.tasks h
  have hfil : (db.tasks.filter fun t => t.id == tid) = [] :=
    List.filter_eq_nil_iff.mpr fun a ha => by simp [h a ha]
  simp only [putTask, hmap, hfil, List.head?_nil]

theorem toggleTask_missing_witness :
    (∀ t ∈ dbSample.tasks, t.id ≠ 42) ∧
    putTask dbSample 42 = ({ status := 200, body := .empty }, dbSample) :=
  ⟨by decide, toggleTask_missing dbSample 42 (by decide)⟩

/-- C4: POST `/projects` rejects a request with a missing or empty required
field with 400 and inserts no row (the check precedes any query); with all
required fields present it responds 201 with the created row carrying the
generated id and timestamp.  Stated for both variants: variant A requires
name and description, variant B requires name and status. -/
theorem createProject_validation (db : DB) (dbB : DBB) (name description bstatus : Option String) :
    ((isFalsyStr name || isFalsyStr description) = true →
      postProjects db name description =
        ({ status := 400, body := .jsonError "Name and description are required" }, db)) ∧
    ((isFalsyStr name || isFalsyStr description) = false →
      ∃ row : Project,
        postProjects db name description =
          ({ status := 201, body := .jsonProject row },
           { db with projects := db.projects ++ [row],
                     nextProjectId := db.nextProjectId + 1, now := db.now + 1 }) ∧
        row.id = db.nextProjectId ∧ row.created_at = db.now) ∧
    ((isFalsyStr name || isFalsyStr bstatus) = true →
      postProjectsB dbB name bstatus =
        ({ status := 400, body := .jsonError "Name and status are required" }, dbB)) ∧
    ((isFalsyStr name || isFalsyStr bstatus) = false →
      ∃ row : ProjectB,
        postProjectsB dbB name bstatus =
          ({ status := 201, body := .jsonProjectB row.id row.name row.status row.created_at },
           { dbB with projects := dbB.projects ++ [row],
                      nextProjectId := dbB.nextProjectId + 1, now := dbB.now + 1 }) ∧
        row.id = dbB.nextProjectId ∧ row.created_at = dbB.now) := by
  refine ⟨fun h => ?_, fun h => ?_, fun h => ?_, fun h => ?_⟩
  · simp [postProjects, h]
  · simp only [postProjects, h, Bool.false_eq_true, if_false]
    exact ⟨_, rfl, rfl, rfl⟩
  · simp [postProjectsB, h]
  · simp only [postProjectsB, h, Bool.false_eq_true, if_false]
    exact ⟨{ id := dbB.nextProjectId, name := name.getD "", status := bstatus.getD "",
             created_at := dbB.now }, rfl, rfl, rfl⟩

theorem createProject_validation_witness :
    postProjects dbSample none (some "d") =
      ({ status := 400, body := .jsonError "Name and description are required" }, dbSample) ∧
    postProjectsB dbbSample (some "A") none =
      ({ status := 400, body := .jsonError "Name and status are required" }, dbbSample) ∧
    (∃ row : Project,
      postProjects dbSample (some "A") (some "d") =
        ({ status := 201, body := .jsonProject row },
         { dbSample with projects := dbSample.projects ++ [row],
                         nextProjectId := dbSample.nextProjectId + 1,
                         now := dbSample.now + 1 }) ∧
      row.id = dbSample.nextProjectId ∧ row.created_at = dbSample.now) :=
  ⟨(createProject_validation dbSample dbbSample none (some "d") none).1 (by decide),
   (createProject_validation dbSample dbbSample (some "A") (some "d") none).2.2.1 (by decide),
   (createProject_validation dbSample dbbSample (some "A") (some "d") none).2.1 (by decide)⟩

/-- C5 counterexample: in variant A a request with the non-empty name
"Alpha" but no description is rejected with 400 and inserts nothing — the
handler does not treat description as optional. -/
theorem createProject_missing_description_cex :
    (postProjects dbSample (some "Alpha") none).1.status = 400 ∧
    (postProjects dbSample (some "Alpha") none).2 = dbSample ∧
    (postProjects dbSample (some "Alpha") none).1.status ≠ 201 := by
  refine ⟨rfl, rfl, by decide⟩

/-- C5 (amended): the variant A schema makes `description` nullable and
defaults `status` to "new", but the POST `/projects` handler itself requires
a non-empty description: omitting it yields 400; when both name and
description are present and non-empty, the request succeeds with 201 and the
created row's `status` is "new" (the insert never supplies `status`, so the
schema default applies). -/
theorem createProject_status_default (db : DB) (name description : Option String)
    (hn : isFalsyStr name = false) (hd : isFalsyStr description = false) :
    (postProjects db name none).1.status = 400 ∧
    ∃ row : Project,
      postProjects db name description =
        ({ status := 201, body := .jsonProject row },
         { db with projects := db.projects ++ [row],
                   nextProjectId := db.nextProjectId + 1, now := db.now + 1 }) ∧
      row.status = "new" := by
  constructor
  · simp [postProjects, isFalsyStr]
  · simp only [postProjects, hn, hd, Bool.or_self, Bool.false_eq_true, if_false]
    exact ⟨_, rfl, rfl⟩

theorem createProject_status_default_witness :
    isFalsyStr (some "Alpha") = false ∧ isFalsyStr (some "first") = false ∧
    ((postProjects dbSample (some "Alpha") none).1.status = 400 ∧
     ∃ row : Project,
       postProjects dbSample (some "Alpha") (some "first") =
         ({ status := 201, body := .jsonProject row },
          { dbSample with projects := dbSample.projects ++ [row],
                          nextProjectId := dbSample.nextProjectId + 1,
                          now := dbSample.now + 1 }) ∧
       row.status = "new") :=
  ⟨by decide, by decide,
   createProject_status_default dbSample (some "Alpha") (some "first") rfl rfl⟩

/-! Completion percentage. -/

lemma countDoneTasks_le_countTasks (db : DB) (pid : Nat) :
    countDoneTasks db pid ≤ countTasks db pid := by
  unfold countDoneTasks countTasks
  induction db.tasks with
  | nil => simp
  | cons a l ih =>
    by_cases h1 : a.project_id = pid <;> by_cases h2 : a.done = true <;>
      simp [List.filter_cons, h1, h2] <;> omega

/-- C1: the completion endpoint always responds 200 with an integer
percentage in [0, 100]: 0 when the project has zero tasks, otherwise the
round-half-up of 100·done/total; in particular 1 done of 4 gives 25 and
1 done of 3 gives 33. -/
theorem completion_spec (db : DB) (pid : Nat) :
    ∃ p : Nat,
      getCompletion db pid = { status := 200, body := .jsonPercentage p } ∧
      p ≤ 100 ∧
      p = (if countTasks db pid = 0 then 0
           else specRoundHalfUp (countDoneTasks db pid) (countTasks db pid)) ∧
      specRoundHalfUp 1 4 = 25 ∧ specRoundHalfUp 1 3 = 33 := by
  refine ⟨_, rfl, ?_, ?_, by decide, by decide⟩
  · by_cases h : countTasks db pid = 0
    · simp [h]
    · have hd := countDoneTasks_le_countTasks db pid
      have ht : 0 < countTasks db pid := Nat.pos_of_ne_zero h
      have hred : (if (countTasks db pid == 0) = true then 0
          else jsMathRound (countDoneTasks db pid * 100) (countTasks db pid))
          = jsMathRound (countDoneTasks db pid * 100) (countTasks db pid) := by
        simp [h]
      rw [hred]
      unfold jsMathRound
      have hlt : 2 * (countDoneTasks db pid * 100) + countTasks db pid <
          101 * (2 * countTasks db pid) := by omega
      have := (Nat.div_lt_iff_lt_mul (by omega :
        0 < 2 * countTasks db pid)).mpr hlt
      omega
  · by_cases h : countTasks db pid = 0
    · simp [h, specRoundHalfUp]
    · have hred : (if (countTasks db pid == 0) = true then 0
          else jsMathRound (countDoneTasks db pid * 100) (countTasks db pid))
          = jsMathRound (countDoneTasks db pid * 100) (countTasks db pid) := by
        simp [h]
      rw [hred, if_neg h]
      unfold jsMathRound specRoundHalfUp
      congr 1
      ring

/-- C10: for any project id with no task rows — including ids of projects
that do not exist in the store at all — the completion endpoint responds
200 with percentage 0; under referential integrity a nonexistent project
has no tasks, so it is indistinguishable from an existing project with
zero tasks; the endpoint never responds with any status other than 200. -/
theorem completion_nonexistent (db : DB) (pid : Nat) :
    (countTasks db pid = 0 →
      getCompletion db pid = { status := 200, body := .jsonPercentage 0 }) ∧
    (DB.WF db → (∀ p ∈ db.projects, p.id ≠ pid) →
      getCompletion db pid = { status := 200, body := .jsonPercentage 0 }) ∧
    (getCompletion db pid).status = 200 := by
  have hzero : countTasks db pid = 0 →
      getCompletion db pid = { status := 200, body := .jsonPercentage 0 } := by
    intro h
    simp [getCompletion, h]
  refine ⟨hzero, fun hwf hnp => ?_, rfl⟩
  apply hzero
  unfold countTasks
  rw [List.length_eq_zero]
  apply List.filter_eq_nil_iff.mpr
  intro t ht
  obtain ⟨p, hp, hpid⟩ := hwf.1 t ht
  simp only [beq_iff_eq]
  exact fun hc => hnp p hp (hpid.trans hc)

theorem completion_nonexistent_witness :
    DB.WF dbSample ∧ (∀ p ∈ dbSample.projects, p.id ≠ 99) ∧
    getCompletion dbSample 99 = { status := 200, body := .jsonPercentage 0 } :=
  ⟨by decide, by decide, (completion_nonexistent dbSample 99).2.1 (by decide) (by decide)⟩

/-! Project listing order. -/

def projB2 : Project :=
  { id := 2, name := "Beta", description := none, status := "new", created_at := 5 }

def dbSorted : DB :=
  { projects := [projA, projB2], tasks := [], files := [],
    nextProjectId := 3, nextTaskId := 1, nextFileId := 1, now := 6 }

/-- C6: `listProjects` returns the project rows ordered by `created_at`
descending: whenever a returned row has a strictly larger `created_at` than
another (i.e. it was created later), it occupies a strictly earlier
position in the returned array. -/
theorem listProjects_created_desc (db : DB) (i j : Nat)
    (hi : i < (listProjects db).length) (hj : j < (listProjects db).length)
    (h : ((listProjects db).get ⟨i, hi⟩).created_at <
         ((listProjects db).get ⟨j, hj⟩).created_at) :
    j < i := by
  have hs : (listProjects db).Sorted createdDesc :=
    List.sorted_insertionSort createdDesc db.projects
  rcases Nat.lt_trichotomy i j with hij | hij | hij
  · have hrel := hs.rel_get_of_lt (a := ⟨i, hi⟩) (b := ⟨j, hj⟩) hij
    exact absurd h (Nat.not_lt.mpr hrel)
  · subst hij
    exact absurd h (Nat.lt_irrefl _)
  · exact hij

theorem listProjects_created_desc_witness :
    ((listProjects dbSorted).get ⟨1, by decide⟩).created_at <
      ((listProjects dbSorted).get ⟨0, by decide⟩).created_at ∧ (0 : Nat) < 1 :=
  ⟨by decide, listProjects_created_desc dbSorted 1 0 (by decide) (by decide) (by decide)⟩

/-! File listing and viewing. -/

/-- The columns of a files row other than `filepath`. -/
def fileKey (r : FileRow) : Nat × String × Nat := (r.id, r.filename, r.project_id)

lemma filesListing_eq (pid : Nat) : ∀ l1 l2 : List FileRow,
    l1.map fileKey = l2.map fileKey →
    ((l1.filter fun r => r.project_id == pid).map fun r =>
      ({ id := r.id, filename := r.filename } : FileEntry)) =
    ((l2.filter fun r => r.project_id == pid).map fun r =>
      ({ id := r.id, filename := r.filename } : FileEntry)) := by
  intro l1
  induction l1 with
  | nil =>
    intro l2 h
    cases l2 with
    | nil => rfl
    | cons b l2t => simp at h
  | cons a l ih =>
    intro l2 h
    cases l2 with
    | nil => simp at h
    | cons b l2t =>
      simp only [List.map_cons, List.cons.injEq] at h
      obtain ⟨hab, htail⟩ := h
      unfold fileKey at hab
      obtain ⟨h1, h2, h3⟩ :
          a.id = b.id ∧ a.filename = b.filename ∧ a.project_id = b.project_id := by
        simpa using hab
      simp only [List.filter_cons]
      by_cases hp : a.project_id = pid
      · have hp2 : b.project_id = pid := h3 ▸ hp
        simp [hp, hp2, h1, h2, ih l2t htail]
      · have hp2 : ¬ b.project_id = pid := fun hc => hp (h3.trans hc)
        simp [hp, hp2, ih l2t htail]

/-- C7: the file listing of a project contains objects with exactly the
fields id and filename — its output is invariant under arbitrary changes to
the rows' `filepath` column — whereas the view route retrieves the full row
and streams the file at the stored `filepath`. -/
theorem listFiles_fields (db db2 : DB) (pid : Nat)
    (h : db.files.map fileKey = db2.files.map fileKey) :
    getProjectFiles db pid = getProjectFiles db2 pid ∧
    (∀ (fid : Nat) (r : FileRow),
      (db.files.filter fun q => q.id == fid).head? = some r →
      getFileView db fid =
        { status := 200, body := .fileStream (pathResolve serverDirname r.filepath) }) := by
  constructor
  · unfold getProjectFiles
    rw [filesListing_eq pid db.files db2.files h]
  · intro fid r hr
    simp [getFileView, hr]

def fileRow1 : FileRow :=
  { id := 1, filename := "report.pdf", filepath := "uploads/1-report.pdf", project_id := 1 }

def fileRow1b : FileRow :=
  { id := 1, filename := "report.pdf", filepath := "elsewhere/x", project_id := 1 }

def dbFiles : DB :=
  { projects := [projA], tasks := [], files := [fileRow1],
    nextProjectId := 2, nextTaskId := 1, nextFileId := 2, now := 3 }

def dbFiles2 : DB :=
  { projects := [projA], tasks := [], files := [fileRow1b],
    nextProjectId := 2, nextTaskId := 1, nextFileId := 2, now := 3 }

theorem listFiles_fields_witness :
    dbFiles.files.map fileKey = dbFiles2.files.map fileKey ∧
    getProjectFiles dbFiles 1 = getProjectFiles dbFiles2 1 ∧
    getFileView dbFiles 1 =
      { status := 200, body := .fileStream (pathResolve serverDirname fileRow1.filepath) } :=
  ⟨by decide, (listFiles_fields dbFiles dbFiles2 1 (by decide)).1,
   (listFiles_fields dbFiles dbFiles2 1 (by decide)).2 1 fileRow1 (by decide)⟩

/-- C8: GET `/files/:id/view` responds 404 exactly when no files row with
that id exists; when such a row exists it responds 200 and streams the file
at the stored path of the first matching row. -/
theorem fileView_404_iff (db : DB) (fid : Nat) :
    ((getFileView db fid).status = 404 ↔ ∀ r ∈ db.files, r.id ≠ fid) ∧
    ((∃ r ∈ db.files, r.id = fid) →
      ∃ r ∈ db.files, r.id = fid ∧
        getFileView db fid =
          { status := 200, body := .fileStream (pathResolve serverDirname r.filepath) }) := by
  cases hh : (db.files.filter fun q => q.id == fid).head? with
  | none =>
    have hnil : (db.files.filter fun q => q.id == fid) = [] := by
      cases hfe : db.files.filter fun q => q.id == fid with
      | nil => rfl
      | cons x xs => rw [hfe] at hh; simp at hh
    have hall : ∀ r ∈ db.files, r.id ≠ fid := by
      intro r hr
      have := List.filter_eq_nil_iff.mp hnil r hr
      simpa using this
    constructor
    · simp only [getFileView, hh]
      simpa using hall
    · rintro ⟨r, hr, hid⟩
      exact absurd hid (hall r hr)
  | some r =>
    have hmem : r ∈ db.files.filter fun q => q.id == fid := by
      cases hfe : db.files.filter fun q => q.id == fid with
      | nil => rw [hfe] at hh; simp at hh
      | cons x xs =>
        rw [hfe] at hh
        simp only [List.head?_cons, Option.some.injEq] at hh
        subst hh
        exact List.mem_cons_self _ _
    obtain ⟨hrf, hrid⟩ := List.mem_filter.mp hmem
    have hrid' : r.id = fid := by simpa using hrid
    constructor
    · simp only [getFileView, hh]
      simp only [show (200 : Nat) ≠ 404 by decide, false_iff, not_forall]
      exact ⟨r, hrf, by simp [hrid']⟩
    · intro _
      exact ⟨r, hrf, hrid', by simp [getFileView, hh]⟩

theorem fileView_404_iff_witness :
    (getFileView dbFiles 2).status = 404 ∧
    (∃ r ∈ dbFiles.files, r.id = 1 ∧
      getFileView dbFiles 1 =
        { status := 200, body := .fileStream (pathResolve serverDirname r.filepath) }) :=
  ⟨(fileView_404_iff dbFiles 2).1.mpr (by decide),
   (fileView_404_iff dbFiles 1).2 (by decide)⟩

/-! Distinctness of stored paths across uploads. -/

lemma digitChar_inj_lt10 :
    ∀ a, a < 10 → ∀ b, b < 10 → Nat.digitChar a = Nat.digitChar b → a = b := by decide

lemma map_digitChar_inj : ∀ l1 l2 : List Nat,
    (∀ d ∈ l1, d < 10) → (∀ d ∈ l2, d < 10) →
    l1.map Nat.digitChar = l2.map Nat.digitChar → l1 = l2 := by
  intro l1
  induction l1 with
  | nil =>
    intro l2 _ _ h
    cases l2 with
    | nil => rfl
    | cons b l2t => simp at h
  | cons a l ih =>
    intro l2 h1 h2 h
    cases l2 with
    | nil => simp at h
    | cons b l2t =>
      simp only [List.map_cons, List.cons.injEq] at h
      have ha : a < 10 := h1 a (List.mem_cons_self a l)
      have hb : b < 10 := h2 b (List.mem_cons_self b l2t)
      rw [digitChar_inj_lt10 a ha b hb h.1,
        ih l2t (fun d hd => h1 d (List.mem_cons_of_mem a hd))
          (fun d hd => h2 d (List.mem_cons_of_mem b hd)) h.2]

lemma jsNumToString_ne_zero_str (n : Nat) (hn : n ≠ 0) : jsNumToString n ≠ "0" := by
  intro h
  rw [jsNumToString, if_neg hn] at h
  have hdata : ((Nat.digits 10 n).map Nat.digitChar).reverse = ['0'] :=
    congrArg String.data h
  have hmap : (Nat.digits 10 n).map Nat.digitChar = ['0'] := by
    have := congrArg List.reverse hdata
    simpa using this
  cases hdig : Nat.digits 10 n with
  | nil => rw [hdig] at hmap; simp at hmap
  | cons d ds =>
    rw [hdig] at hmap
    simp only [List.map_cons, List.cons.injEq, List.map_eq_nil_iff] at hmap
    obtain ⟨hd0, hds⟩ := hmap
    have hdmem : d ∈ Nat.digits 10 n := by
      rw [hdig]; exact List.mem_cons_self d ds
    have hdlt : d < 10 := Nat.digits_lt_base (by norm_num) hdmem
    have hdzero : d = 0 :=
      digitChar_inj_lt10 d hdlt 0 (by norm_num) (hd0.trans rfl)
    have hofd := Nat.ofDigits_digits 10 n
    rw [hdig, hds, hdzero] at hofd
    simp only [Nat.ofDigits_cons, Nat.ofDigits_nil] at hofd
    omega

lemma jsNumToString_inj : Function.Injective jsNumToString := by
  intro m n h
  by_cases hm : m = 0 <;> by_cases hn : n = 0
  · rw [hm, hn]
  · subst hm
    exact absurd (h.symm.trans rfl) (jsNumToString_ne_zero_str n hn)
  · subst hn
    exact absurd (h.trans rfl) (jsNumToString_ne_zero_str m hm)
  · rw [jsNumToString, jsNumToString, if_neg hm, if_neg hn] at h
    have hdata : ((Nat.digits 10 m).map Nat.digitChar).reverse =
        ((Nat.digits 10 n).map Nat.digitChar).reverse := congrArg String.data h
    have hmap := List.reverse_injective hdata
    have hd := map_digitChar_inj _ _
      (fun d hdm => Nat.digits_lt_base (by norm_num) hdm)
      (fun d hdm => Nat.digits_lt_base (by norm_num) hdm) hmap
    exact Nat.digits_inj_iff.mp hd

lemma storedPath_now_inj (t1 t2 : Nat) (name : String)
    (h : storedPath t1 name = storedPath t2 name) : t1 = t2 := by
  unfold storedPath storedFilename at h
  have hdata := congrArg String.data h
  simp only [String.data_append, List.append_assoc] at hdata
  have h1 := List.append_cancel_left hdata
  have h2 := List.append_cancel_right h1
  exact jsNumToString_inj (String.ext h2)

def upFile : UploadedFile := { originalname := "notes.txt" }

def dbUp : DB :=
  { projects := [projA], tasks := [], files := [],
    nextProjectId := 2, nextTaskId := 1, nextFileId := 1, now := 7 }

/-- The store after two uploads of the same file to project 1 handled within
the same millisecond (no time elapses between them). -/
def dbUp2 : DB := (postUpload (postUpload dbUp 1 (some upFile)).2 1 (some upFile)).2

/-- C9 counterexample: the only uniqueness mechanism is the
`Date.now() + '-' + originalname` prefix, and `Date.now()` has millisecond
resolution, so two uploads of "notes.txt" handled in the same millisecond
(clock reading 7 for both) insert two distinct metadata rows that carry the
*same* stored path — the stored paths are not always distinct. -/
theorem upload_same_filename_cex :
    dbUp2.files.map FileRow.filepath =
      [storedPath 7 "notes.txt", storedPath 7 "notes.txt"] ∧
    dbUp2.files.map FileRow.id = [1, 2] ∧
    dbUp2.files.map FileRow.filename = ["notes.txt", "notes.txt"] ∧
    dbUp2.files.map FileRow.project_id = [1, 1] :=
  ⟨rfl, rfl, rfl, rfl⟩

/-- C9 (amended): two uploads of the same original filename to the same
project always insert two distinct metadata rows (their generated ids
differ); their stored paths are distinct exactly when the millisecond
timestamps the two uploads read from `Date.now()` differ, i.e. when a
nonzero time `d` elapsed between them — uploads within the same millisecond
(`d = 0`) produce identical stored paths. -/
theorem upload_same_filename_distinct (db : DB) (pid : Nat) (f : UploadedFile) (d : Nat) :
    ∃ r1 r2 : FileRow,
      ((postUpload (elapse d (postUpload db pid (some f)).2) pid (some f)).2).files =
        db.files ++ [r1, r2] ∧
      r1.filename = f.originalname ∧ r2.filename = f.originalname ∧
      r1.project_id = pid ∧ r2.project_id = pid ∧
      r1 ≠ r2 ∧
      (r1.filepath ≠ r2.filepath ↔ d ≠ 0) := by
  refine ⟨{ id := db.nextFileId, filename := f.originalname,
            filepath := storedPath db.now f.originalname, project_id := pid },
          { id := db.nextFileId + 1, filename := f.originalname,
            filepath := storedPath (db.now + d) f.originalname, project_id := pid },
          ?_, rfl, rfl, rfl, rfl, ?_, ?_, ?_⟩
  · simp [postUpload, elapse]
  · intro hc
    have := congrArg FileRow.id hc
    simp at this
  · intro hne hd0
    subst hd0
    exact hne rfl
  · intro hd hc
    have := storedPath_now_inj db.now (db.now + d) f.originalname hc
    omega
